import Mathlib

/-!
Shallow embedding of `src/alacritty/src/display/cursor.rs`: conversion of a
renderable cursor into a bounded set of screen rectangles, plus the slot-wise
spring interpolation of two such sets.  `f32` values are modelled as `ℚ`,
with `f32::round` (round half away from zero) made explicit.
-/

/-- RGB color, as consumed opaquely by the cursor code. -/
structure Rgb where
  r : ℕ
  g : ℕ
  b : ℕ
  deriving DecidableEq, Repr

/-- A render rectangle: position, size, color and opacity
(`RenderRect` as constructed by `RenderRect::new_cur`). -/
structure RenderRect where
  x : ℚ
  y : ℚ
  width : ℚ
  height : ℚ
  color : Rgb
  alpha : ℚ
  deriving DecidableEq, Repr

/-- `RenderRect::new_cur(x, y, width, height, color, alpha)`. -/
def RenderRect.new_cur (x y width height : ℚ) (color : Rgb) (alpha : ℚ) :
    RenderRect :=
  ⟨x, y, width, height, color, alpha⟩

/-- `alacritty_terminal::vte::ansi::CursorShape` (closed enumeration). -/
inductive CursorShape where
  | Block
  | Underline
  | Beam
  | HollowBlock
  | Hidden
  deriving DecidableEq, Repr

/-- Grid position of the cursor (`Point { column, line }`). -/
structure Point where
  column : ℕ
  line : ℤ
  deriving DecidableEq, Repr

/-- The fields of `RenderableCursor` read by `IntoRects::rects`:
`point()`, `shape()`, `color()`, `is_wide()`. -/
structure RenderableCursor where
  point : Point
  shape : CursorShape
  color : Rgb
  is_wide : Bool
  deriving DecidableEq, Repr

/-- The fields of `SizeInfo` read by `IntoRects::rects`. -/
structure SizeInfo where
  cell_width : ℚ
  cell_height : ℚ
  padding_x : ℚ
  padding_y : ℚ
  deriving DecidableEq, Repr

/-- `f32::round`: round half away from zero, on the rational model. -/
def roundAway (q : ℚ) : ℚ :=
  if q < 0 then -((⌊-q + 1/2⌋ : ℤ) : ℚ) else ((⌊q + 1/2⌋ : ℤ) : ℚ)

/-- The cursor rect container
(`CursorRects { rects: [Option<RenderRect>; 4], index: usize }`),
with the four array cells flattened into fields. -/
structure CursorRects where
  r0 : Option RenderRect
  r1 : Option RenderRect
  r2 : Option RenderRect
  r3 : Option RenderRect
  index : ℕ
  deriving DecidableEq, Repr

/-- `self.rects.get(i)`: `none` when `i` is out of bounds, else the slot. -/
def CursorRects.slot (s : CursorRects) : ℕ → Option (Option RenderRect)
  | 0 => some s.r0
  | 1 => some s.r1
  | 2 => some s.r2
  | 3 => some s.r3
  | _ => none

/-- `Iterator::next` for `CursorRects`:
`let rect = self.rects.get_mut(self.index)?; self.index += 1; rect.take()`.
When the index is in bounds the slot is read out, cleared (`take`) and the
index incremented; out of bounds, `get_mut` fails and `?` returns `none`
leaving the set unchanged.  Returns the yielded item with the new state. -/
def CursorRects.next (s : CursorRects) : Option RenderRect × CursorRects :=
  match s.index with
  | 0 => (s.r0, ⟨none, s.r1, s.r2, s.r3, 1⟩)
  | 1 => (s.r1, ⟨s.r0, none, s.r2, s.r3, 2⟩)
  | 2 => (s.r2, ⟨s.r0, s.r1, none, s.r3, 3⟩)
  | 3 => (s.r3, ⟨s.r0, s.r1, s.r2, none, 4⟩)
  | _ => (none, s)

/-- `From<RenderRect> for CursorRects`: the rect in slot 0, cursor at 0. -/
def CursorRects.fromRect (rect : RenderRect) : CursorRects :=
  ⟨some rect, none, none, none, 0⟩

/-- One slot of `CursorRects::interpolate`, with the per-rectangle
interpolation (defined outside this excerpt, in `renderer/rects.rs`)
abstracted as `f`. -/
def interpolateSlot (f : RenderRect → RenderRect → RenderRect)
    (mine theirs : Option RenderRect) : Option RenderRect :=
  match mine with
  | some mine_v =>
    match theirs with
    | some theirs_v => some (f mine_v theirs_v)
    | none => none
  | none => theirs

/-- `CursorRects::interpolate(&mut self, other, factor, spring)`:
every slot is rewritten by the per-slot rule; `f` stands for
`RenderRect::interpolate`, whose body lives outside this excerpt. -/
def CursorRects.interpolate (f : RenderRect → RenderRect → ℚ → ℚ → RenderRect)
    (s other : CursorRects) (factor spring : ℚ) : CursorRects :=
  { s with
    r0 := interpolateSlot (fun a b => f a b factor spring) s.r0 other.r0
    r1 := interpolateSlot (fun a b => f a b factor spring) s.r1 other.r1
    r2 := interpolateSlot (fun a b => f a b factor spring) s.r2 other.r2
    r3 := interpolateSlot (fun a b => f a b factor spring) s.r3 other.r3 }

/-- The shape-resolution `match` inside `IntoRects::rects`:
`Beam`, `Underline` and `HollowBlock` keep themselves, anything else is
replaced by the override when one is given. -/
def resolveShape (shape : CursorShape) : Option CursorShape → CursorShape
  | none => shape
  | some block_replace =>
    match shape with
    | CursorShape.Beam => shape
    | CursorShape.Underline => shape
    | CursorShape.HollowBlock => shape
    | _ => block_replace

/-- `fn beam`: a single beam rect. -/
def beam (x y height thickness : ℚ) (color : Rgb) : CursorRects :=
  CursorRects.fromRect (RenderRect.new_cur x y thickness height color 1)

/-- `fn underline`: a single underline rect flush with the cell bottom. -/
def underline (x y width height thickness : ℚ) (color : Rgb) : CursorRects :=
  let y := y + height - thickness
  CursorRects.fromRect (RenderRect.new_cur x y width thickness color 1)

/-- `fn hollow`: one rect per side of the hollow block cursor, stored in
the order top, bottom, left, right. -/
def hollow (x y width height thickness : ℚ) (color : Rgb) : CursorRects :=
  let top_line := RenderRect.new_cur x y width thickness color 1
  let vertical_y := y + thickness
  let vertical_height := height - 2 * thickness
  let left_line :=
    RenderRect.new_cur x vertical_y thickness vertical_height color 1
  let bottom_y := y + height - thickness
  let bottom_line := RenderRect.new_cur x bottom_y width thickness color 1
  let right_x := x + width - thickness
  let right_line :=
    RenderRect.new_cur right_x vertical_y thickness vertical_height color 1
  ⟨some top_line, some bottom_line, some left_line, some right_line, 0⟩

/-- `IntoRects::rects` for `RenderableCursor`: resolve the shape against the
optional override and build the shape's rectangles.  The thickness is
computed from the cell width before the wide doubling, exactly as in the
source (`let thickness = (thickness * width).round().max(1.)` precedes
`width *= 2.`). -/
def RenderableCursor.rects (c : RenderableCursor) (size_info : SizeInfo)
    (thickness : ℚ) (block_replace : Option CursorShape) : CursorRects :=
  let x : ℚ := (c.point.column : ℚ) * size_info.cell_width + size_info.padding_x
  let y : ℚ := (c.point.line : ℚ) * size_info.cell_height + size_info.padding_y
  let width := size_info.cell_width
  let height := size_info.cell_height
  let thickness := max (roundAway (thickness * width)) 1
  let width := if c.is_wide then width * 2 else width
  match resolveShape c.shape block_replace with
  | CursorShape.Beam => beam x y height thickness c.color
  | CursorShape.Underline => underline x y width height thickness c.color
  | CursorShape.HollowBlock => hollow x y width height thickness c.color
  | _ => CursorRects.fromRect (RenderRect.new_cur x y width height c.color 1)

/-! ### Shared example values used in witnesses -/

/-- Cell metrics of the spec's concrete scenarios. -/
def exampleSize : SizeInfo := ⟨10, 20, 0, 0⟩

/-- A sample color. -/
def someColor : Rgb := ⟨1, 2, 3⟩

/-- Beam cursor at column 2, line 3, not wide. -/
def beamCursor : RenderableCursor := ⟨⟨2, 3⟩, CursorShape.Beam, someColor, false⟩

/-- HollowBlock cursor at column 2, line 3, not wide. -/
def hollowCursor : RenderableCursor :=
  ⟨⟨2, 3⟩, CursorShape.HollowBlock, someColor, false⟩

/-- Underline cursor at column 2, line 3, wide. -/
def underlineCursor : RenderableCursor :=
  ⟨⟨2, 3⟩, CursorShape.Underline, someColor, true⟩

/-- Block cursor at column 2, line 3, not wide. -/
def blockCursor : RenderableCursor := ⟨⟨2, 3⟩, CursorShape.Block, someColor, false⟩

/-- The spec-side restatement of the override rule, for claim C1:
no override keeps the descriptor shape; with an override, Beam, Underline
and HollowBlock keep themselves and every other shape is replaced. -/
def resolveShapeSpec (shape : CursorShape) (override : Option CursorShape) :
    CursorShape :=
  match override with
  | none => shape
  | some ov =>
    if shape = CursorShape.Beam ∨ shape = CursorShape.Underline ∨
        shape = CursorShape.HollowBlock then shape else ov

/-- C1: shape resolution uses the descriptor's shape when no override is
given; with an override, Beam, Underline and HollowBlock are never
overridden and any other shape (notably Block) becomes the override. -/
theorem c1_shape_resolution :
    ∀ (shape : CursorShape) (override : Option CursorShape),
      resolveShape shape override = resolveShapeSpec shape override := by
  intro s o
  cases o <;> cases s <;> rfl

/-- C2: per-slot interpolation rule: both slots present gives the
interpolated rectangle, present-to-absent drops to none immediately, and
an absent current slot copies the target slot verbatim — for each of the
four slots independently, for every rectangle interpolation `f`. -/
theorem c2_interpolate_slots :
    ∀ (f : RenderRect → RenderRect → ℚ → ℚ → RenderRect)
      (cur tgt : CursorRects) (factor spring : ℚ),
      (cur.interpolate f tgt factor spring).r0 =
        (match cur.r0, tgt.r0 with
         | some a, some b => some (f a b factor spring)
         | some _, none => none
         | none, t => t) ∧
      (cur.interpolate f tgt factor spring).r1 =
        (match cur.r1, tgt.r1 with
         | some a, some b => some (f a b factor spring)
         | some _, none => none
         | none, t => t) ∧
      (cur.interpolate f tgt factor spring).r2 =
        (match cur.r2, tgt.r2 with
         | some a, some b => some (f a b factor spring)
         | some _, none => none
         | none, t => t) ∧
      (cur.interpolate f tgt factor spring).r3 =
        (match cur.r3, tgt.r3 with
         | some a, some b => some (f a b factor spring)
         | some _, none => none
         | none, t => t) := by
  intro f cur tgt factor spring
  obtain ⟨a0, a1, a2, a3, i⟩ := cur
  obtain ⟨b0, b1, b2, b3, j⟩ := tgt
  refine ⟨?_, ?_, ?_, ?_⟩ <;>
    first
    | (cases a0 <;> cases b0 <;> rfl)
    | (cases a1 <;> cases b1 <;> rfl)
    | (cases a2 <;> cases b2 <;> rfl)
    | (cases a3 <;> cases b3 <;> rfl)

/-- C3: the stroke thickness used by the geometry builder is
`max (round (ratio * cell_width)) 1`, hence always at least `1`, equal to
the rounded product whenever that is at least `1`, and computed from the
unwidened cell width: for Beam, Underline and HollowBlock cursors the
thickness-derived dimension of slot 0 equals this value for either state
of the wide flag. -/
theorem c3_thickness :
    ∀ (point : Point) (color : Rgb) (wide : Bool) (si : SizeInfo) (ratio : ℚ)
      (override : Option CursorShape),
      (1 : ℚ) ≤ max (roundAway (ratio * si.cell_width)) 1 ∧
      (1 ≤ roundAway (ratio * si.cell_width) →
        max (roundAway (ratio * si.cell_width)) 1 =
          roundAway (ratio * si.cell_width)) ∧
      Option.map RenderRect.width
          ((RenderableCursor.mk point CursorShape.Beam color wide).rects
            si ratio override).r0 =
        some (max (roundAway (ratio * si.cell_width)) 1) ∧
      Option.map RenderRect.height
          ((RenderableCursor.mk point CursorShape.Underline color wide).rects
            si ratio override).r0 =
        some (max (roundAway (ratio * si.cell_width)) 1) ∧
      Option.map RenderRect.height
          ((RenderableCursor.mk point CursorShape.HollowBlock color wide).rects
            si ratio override).r0 =
        some (max (roundAway (ratio * si.cell_width)) 1) := by
  intro point color wide si ratio override
  refine ⟨le_max_right _ _, fun h => max_eq_left h, ?_, ?_, ?_⟩ <;>
    cases override <;>
      simp [RenderableCursor.rects, resolveShape, beam, underline, hollow,
        CursorRects.fromRect, RenderRect.new_cur]

/-- Witness for C3 at the spec's concrete metrics:
ratio 3/20 and cell width 10 give a rounded product of 2 ≥ 1, and the
clamped thickness equals it. -/
theorem c3_thickness_witness :
    (1 : ℚ) ≤ roundAway ((3 / 20) * (10 : ℚ)) ∧
      max (roundAway ((3 / 20) * (10 : ℚ))) 1 =
        roundAway ((3 / 20) * (10 : ℚ)) :=
  ⟨by norm_num [roundAway],
   (c3_thickness ⟨2, 3⟩ someColor false ⟨10, 20, 0, 0⟩ (3 / 20) none).2.1
     (by norm_num [roundAway])⟩

/-- C4: a resolved HollowBlock cursor yields exactly four rectangles in
slots 0-3, in the fixed order top, bottom, left, right, with top at
`(x, y, w, t)`, bottom at `(x, y + h - t, w, t)`, left at
`(x, y + t, t, h - 2t)` and right at `(x + w - t, y + t, t, h - 2t)`,
where `w` is the possibly wide-doubled cell width. -/
theorem c4_hollow_geometry :
    ∀ (c : RenderableCursor) (si : SizeInfo) (ratio : ℚ)
      (override : Option CursorShape),
      resolveShape c.shape override = CursorShape.HollowBlock →
      c.rects si ratio override =
        (let x := (c.point.column : ℚ) * si.cell_width + si.padding_x
         let y := (c.point.line : ℚ) * si.cell_height + si.padding_y
         let w := if c.is_wide then si.cell_width * 2 else si.cell_width
         let h := si.cell_height
         let t := max (roundAway (ratio * si.cell_width)) 1
         ⟨some (RenderRect.new_cur x y w t c.color 1),
          some (RenderRect.new_cur x (y + h - t) w t c.color 1),
          some (RenderRect.new_cur x (y + t) t (h - 2 * t) c.color 1),
          some (RenderRect.new_cur (x + w - t) (y + t) t (h - 2 * t) c.color 1),
          0⟩) := by
  intro c si ratio override h
  simp only [RenderableCursor.rects, h, hollow]

/-- Witness for C4 at the spec's concrete metrics (cell 10×20, no padding,
ratio 3/20, column 2, line 3, not wide): the four hollow rectangles are
top (20,60,10,2), bottom (20,78,10,2), left (20,62,2,16), right
(28,62,2,16). -/
theorem c4_hollow_witness :
    resolveShape hollowCursor.shape none = CursorShape.HollowBlock ∧
    hollowCursor.rects exampleSize (3 / 20) none =
      ⟨some (RenderRect.new_cur 20 60 10 2 someColor 1),
       some (RenderRect.new_cur 20 78 10 2 someColor 1),
       some (RenderRect.new_cur 20 62 2 16 someColor 1),
       some (RenderRect.new_cur 28 62 2 16 someColor 1), 0⟩ := by
  refine ⟨rfl, ?_⟩
  have h := c4_hollow_geometry hollowCursor exampleSize (3 / 20) none rfl
  rw [h]
  norm_num [hollowCursor, exampleSize, someColor, RenderRect.new_cur,
    roundAway, max_def]

/-- Counterexample for C5 as stated: with cell width 10, cell height 2, no
padding and ratio 3/20 the thickness is 2, so the left stroke of the
hollow block is produced with height 2 - 2*2 = -2, which is not positive;
hence not every cell metric yields four rectangles of positive size. -/
theorem c5_counterexample :
    (((⟨⟨0, 0⟩, CursorShape.HollowBlock, someColor, false⟩ :
          RenderableCursor).rects ⟨10, 2, 0, 0⟩ (3 / 20) none).r2 =
        some (RenderRect.new_cur 0 2 2 (-2) someColor 1)) ∧
      ¬ (0 : ℚ) < -2 := by
  constructor
  · norm_num [RenderableCursor.rects, resolveShape, hollow,
      RenderRect.new_cur, roundAway, max_def]
  · norm_num

/-- C5 (amended): whenever the cell width is positive, the thickness is at
most the cell width, and twice the thickness is below the cell height, a
resolved HollowBlock yields exactly 4 rectangles of positive width and
height, all contained in the (possibly wide-doubled) cell rectangle with
its four edges attained (so the outer bounding box is the cell), and each
stroke stays within depth `thickness` of one cell edge. -/
theorem c5_hollow_bounds (c : RenderableCursor) (si : SizeInfo) (ratio : ℚ)
    (override : Option CursorShape) (x y w h t : ℚ)
    (hx : x = (c.point.column : ℚ) * si.cell_width + si.padding_x)
    (hy : y = (c.point.line : ℚ) * si.cell_height + si.padding_y)
    (hwdef : w = if c.is_wide then si.cell_width * 2 else si.cell_width)
    (hhdef : h = si.cell_height)
    (htdef : t = max (roundAway (ratio * si.cell_width)) 1)
    (hres : resolveShape c.shape override = CursorShape.HollowBlock)
    (hpos : 0 < si.cell_width) (hcw : t ≤ si.cell_width) (hch : 2 * t < h) :
    ∃ a b l r : RenderRect,
      (c.rects si ratio override).r0 = some a ∧
      (c.rects si ratio override).r1 = some b ∧
      (c.rects si ratio override).r2 = some l ∧
      (c.rects si ratio override).r3 = some r ∧
      (0 < a.width ∧ 0 < a.height) ∧ (0 < b.width ∧ 0 < b.height) ∧
      (0 < l.width ∧ 0 < l.height) ∧ (0 < r.width ∧ 0 < r.height) ∧
      (x ≤ a.x ∧ a.x + a.width ≤ x + w ∧ y ≤ a.y ∧ a.y + a.height ≤ y + h) ∧
      (x ≤ b.x ∧ b.x + b.width ≤ x + w ∧ y ≤ b.y ∧ b.y + b.height ≤ y + h) ∧
      (x ≤ l.x ∧ l.x + l.width ≤ x + w ∧ y ≤ l.y ∧ l.y + l.height ≤ y + h) ∧
      (x ≤ r.x ∧ r.x + r.width ≤ x + w ∧ y ≤ r.y ∧ r.y + r.height ≤ y + h) ∧
      (a.x = x ∧ a.x + a.width = x + w ∧ a.y = y ∧ b.y + b.height = y + h) ∧
      (a.y + a.height ≤ y + t ∧ y + h - t ≤ b.y ∧
        l.x + l.width ≤ x + t ∧ x + w - t ≤ r.x) := by
  have h1 : (1 : ℚ) ≤ max (roundAway (ratio * si.cell_width)) 1 :=
    le_max_right _ _
  obtain ⟨⟨col, line⟩, shape, color, wide⟩ := c
  simp only [RenderableCursor.rects, hres, hollow]
  cases wide <;>
    · simp only [Bool.false_eq_true, Bool.true_eq_false, if_false,
        if_true] at hwdef ⊢
      refine ⟨_, _, _, _, rfl, rfl, rfl, rfl, ?_⟩
      simp only [RenderRect.new_cur]
      repeat' apply And.intro
      all_goals linarith

/-- Witness for C5 at the spec's concrete metrics (cell 10×20, ratio 3/20,
thickness 2): the four hollow rectangles are positive, tile the cell edge
band, and their bounding box is the cell (20,60)-(30,80). -/
theorem c5_hollow_witness :
    ∃ a b l r : RenderRect,
      (hollowCursor.rects exampleSize (3 / 20) none).r0 = some a ∧
      (hollowCursor.rects exampleSize (3 / 20) none).r1 = some b ∧
      (hollowCursor.rects exampleSize (3 / 20) none).r2 = some l ∧
      (hollowCursor.rects exampleSize (3 / 20) none).r3 = some r ∧
      (0 < a.width ∧ 0 < a.height) ∧ (0 < b.width ∧ 0 < b.height) ∧
      (0 < l.width ∧ 0 < l.height) ∧ (0 < r.width ∧ 0 < r.height) ∧
      ((20 : ℚ) ≤ a.x ∧ a.x + a.width ≤ 20 + 10 ∧ (60 : ℚ) ≤ a.y ∧
        a.y + a.height ≤ 60 + 20) ∧
      ((20 : ℚ) ≤ b.x ∧ b.x + b.width ≤ 20 + 10 ∧ (60 : ℚ) ≤ b.y ∧
        b.y + b.height ≤ 60 + 20) ∧
      ((20 : ℚ) ≤ l.x ∧ l.x + l.width ≤ 20 + 10 ∧ (60 : ℚ) ≤ l.y ∧
        l.y + l.height ≤ 60 + 20) ∧
      ((20 : ℚ) ≤ r.x ∧ r.x + r.width ≤ 20 + 10 ∧ (60 : ℚ) ≤ r.y ∧
        r.y + r.height ≤ 60 + 20) ∧
      (a.x = 20 ∧ a.x + a.width = 20 + 10 ∧ a.y = 60 ∧
        b.y + b.height = 60 + 20) ∧
      (a.y + a.height ≤ 60 + 2 ∧ 60 + 20 - 2 ≤ b.y ∧
        l.x + l.width ≤ 20 + 2 ∧ 20 + 10 - 2 ≤ r.x) :=
  c5_hollow_bounds hollowCursor exampleSize (3 / 20) none 20 60 10 20 2
    (by norm_num [hollowCursor, exampleSize])
    (by norm_num [hollowCursor, exampleSize])
    (by norm_num [hollowCursor, exampleSize])
    (by norm_num [exampleSize])
    (by norm_num [exampleSize, roundAway, max_def])
    rfl
    (by norm_num [exampleSize])
    (by norm_num [exampleSize, roundAway, max_def])
    (by norm_num [exampleSize, roundAway, max_def])

/-- C6: a resolved Beam cursor yields a single rectangle in slot 0 at
`(x, y)` with width equal to the thickness and height equal to the full
cell height, and the output is identical whether or not the wide flag is
set. -/
theorem c6_beam_geometry (c : RenderableCursor) (si : SizeInfo) (ratio : ℚ)
    (override : Option CursorShape)
    (hres : resolveShape c.shape override = CursorShape.Beam) :
    c.rects si ratio override =
      CursorRects.fromRect (RenderRect.new_cur
        ((c.point.column : ℚ) * si.cell_width + si.padding_x)
        ((c.point.line : ℚ) * si.cell_height + si.padding_y)
        (max (roundAway (ratio * si.cell_width)) 1)
        si.cell_height c.color 1) ∧
    ({ c with is_wide := true } : RenderableCursor).rects si ratio override =
      ({ c with is_wide := false } : RenderableCursor).rects si ratio
        override := by
  obtain ⟨⟨col, line⟩, shape, color, wide⟩ := c
  constructor <;> simp only [RenderableCursor.rects, hres, beam]

/-- Witness for C6 at the spec's concrete metrics: the beam rectangle is
(20, 60, 2, 20) with full opacity. -/
theorem c6_beam_witness :
    beamCursor.rects exampleSize (3 / 20) none =
      CursorRects.fromRect (RenderRect.new_cur 20 60 2 20 someColor 1) := by
  have h := (c6_beam_geometry beamCursor exampleSize (3 / 20) none rfl).1
  rw [h]
  norm_num [beamCursor, exampleSize, RenderRect.new_cur, roundAway, max_def,
    CursorRects.fromRect]

/-- C7: a resolved Underline cursor yields a single rectangle in slot 0
spanning the (possibly wide-doubled) width with height equal to the
thickness, flush to the cell bottom at `y + cell_height - thickness`; in
particular the spec's wide scenario gives (20, 78, 20, 2). -/
theorem c7_underline_geometry (c : RenderableCursor) (si : SizeInfo)
    (ratio : ℚ) (override : Option CursorShape)
    (hres : resolveShape c.shape override = CursorShape.Underline) :
    c.rects si ratio override =
      CursorRects.fromRect (RenderRect.new_cur
        ((c.point.column : ℚ) * si.cell_width + si.padding_x)
        ((c.point.line : ℚ) * si.cell_height + si.padding_y +
          si.cell_height - max (roundAway (ratio * si.cell_width)) 1)
        (if c.is_wide then si.cell_width * 2 else si.cell_width)
        (max (roundAway (ratio * si.cell_width)) 1) c.color 1) ∧
    underlineCursor.rects exampleSize (3 / 20) none =
      CursorRects.fromRect (RenderRect.new_cur 20 78 20 2 someColor 1) := by
  constructor
  · obtain ⟨⟨col, line⟩, shape, color, wide⟩ := c
    simp only [RenderableCursor.rects, hres, underline]
  · norm_num [underlineCursor, exampleSize, RenderableCursor.rects,
      resolveShape, underline, CursorRects.fromRect, RenderRect.new_cur,
      roundAway, max_def]

/-- Witness for C7: applying the theorem to the spec's wide scenario
yields the underline rectangle (20, 78, 20, 2). -/
theorem c7_underline_witness :
    underlineCursor.rects exampleSize (3 / 20) none =
      CursorRects.fromRect (RenderRect.new_cur 20 78 20 2 someColor 1) :=
  (c7_underline_geometry underlineCursor exampleSize (3 / 20) none rfl).2

/-- C8: when the resolved shape is none of Beam, Underline and
HollowBlock (so Block or Hidden), the builder yields a single rectangle
covering the full (possibly wide-doubled) cell with opacity exactly 1,
slots 1-3 are empty, and moreover every shape value is handled: slot 0 is
always populated. -/
theorem c8_block_fallback (c : RenderableCursor) (si : SizeInfo) (ratio : ℚ)
    (override : Option CursorShape)
    (hres : resolveShape c.shape override ≠ CursorShape.Beam ∧
      resolveShape c.shape override ≠ CursorShape.Underline ∧
      resolveShape c.shape override ≠ CursorShape.HollowBlock) :
    c.rects si ratio override =
      CursorRects.fromRect (RenderRect.new_cur
        ((c.point.column : ℚ) * si.cell_width + si.padding_x)
        ((c.point.line : ℚ) * si.cell_height + si.padding_y)
        (if c.is_wide then si.cell_width * 2 else si.cell_width)
        si.cell_height c.color 1) ∧
    (c.rects si ratio override).r1 = none ∧
    (c.rects si ratio override).r2 = none ∧
    (c.rects si ratio override).r3 = none ∧
    (∀ s : CursorShape,
      (({ c with shape := s } : RenderableCursor).rects si ratio
        override).r0.isSome = true) := by
  obtain ⟨h1, h2, h3⟩ := hres
  obtain ⟨⟨col, line⟩, shape, color, wide⟩ := c
  have hcase : resolveShape shape override = CursorShape.Block ∨
      resolveShape shape override = CursorShape.Hidden := by
    cases h : resolveShape shape override <;> simp_all
  refine ⟨?_, ?_, ?_, ?_, ?_⟩
  · rcases hcase with h | h <;> simp only [RenderableCursor.rects, h]
  · rcases hcase with h | h <;> simp only [RenderableCursor.rects, h] <;> rfl
  · rcases hcase with h | h <;> simp only [RenderableCursor.rects, h] <;> rfl
  · rcases hcase with h | h <;> simp only [RenderableCursor.rects, h] <;> rfl
  · intro s
    obtain _ | ov := override
    · cases s <;>
        simp [RenderableCursor.rects, resolveShape, beam, underline, hollow,
          CursorRects.fromRect]
    · cases s <;> cases ov <;>
        simp [RenderableCursor.rects, resolveShape, beam, underline, hollow,
          CursorRects.fromRect]

/-- Witness for C8: a Block cursor with no override fills the whole cell
(20, 60, 10, 20) at opacity 1. -/
theorem c8_block_witness :
    blockCursor.rects exampleSize (3 / 20) none =
      CursorRects.fromRect (RenderRect.new_cur 20 60 10 20 someColor 1) := by
  have h := (c8_block_fallback blockCursor exampleSize (3 / 20) none
    ⟨by decide, by decide, by decide⟩).1
  rw [h]
  norm_num [blockCursor, exampleSize, RenderRect.new_cur,
    CursorRects.fromRect]

/-- A slot lookup that succeeds implies the index is in bounds. -/
theorem slot_some_lt (s : CursorRects) (i : ℕ) (v : Option RenderRect)
    (h : s.slot i = some v) : i < 4 := by
  rcases i with _ | _ | _ | _ | n
  · omega
  · omega
  · omega
  · omega
  · simp [CursorRects.slot] at h

/-- The rectangles yielded by `n` successive calls to `next`, in order
(calls that return `none` contribute nothing but the sequence of calls
continues). -/
def CursorRects.yields : CursorRects → ℕ → List RenderRect
  | _, 0 => []
  | s, n + 1 =>
    match s.next with
    | (some r, s2) => r :: s2.yields n
    | (none, s2) => s2.yields n

/-- Any run of calls yields at most `4 - index` rectangles. -/
theorem yields_length_le (n : ℕ) :
    ∀ s : CursorRects, (s.yields n).length ≤ 4 - s.index := by
  induction n with
  | zero => intro s; simp [CursorRects.yields]
  | succ n ih =>
    intro s
    obtain ⟨a, b, c, d, i⟩ := s
    rcases i with _ | _ | _ | _ | m
    · have h := ih ⟨none, b, c, d, 1⟩
      rcases a with _ | r <;>
        · simp only [CursorRects.yields, CursorRects.next,
            List.length_cons] at h ⊢
          omega
    · have h := ih ⟨a, none, c, d, 2⟩
      rcases b with _ | r <;>
        · simp only [CursorRects.yields, CursorRects.next,
            List.length_cons] at h ⊢
          omega
    · have h := ih ⟨a, b, none, d, 3⟩
      rcases c with _ | r <;>
        · simp only [CursorRects.yields, CursorRects.next,
            List.length_cons] at h ⊢
          omega
    · have h := ih ⟨a, b, c, none, 4⟩
      rcases d with _ | r <;>
        · simp only [CursorRects.yields, CursorRects.next,
            List.length_cons] at h ⊢
          omega
    · have h := ih ⟨a, b, c, d, m + 1 + 1 + 1 + 1⟩
      simp only [CursorRects.yields, CursorRects.next] at h ⊢
      omega

/-- C9: single-pass consumption: a successful call to `next` advances the
read cursor by one and clears the slot it read (so the same rectangle is
never yielded twice); the cursor never moves backwards; any sequence of
calls yields at most 4 rectangles; and once the cursor is past slot 3
every further call returns end-of-sequence without changing the set. -/
theorem c9_single_pass (s : CursorRects) :
    (∀ (r : RenderRect) (s2 : CursorRects), s.next = (some r, s2) →
      s2.index = s.index + 1 ∧ s2.slot s.index = some none) ∧
    s.index ≤ (s.next).2.index ∧
    (∀ n : ℕ, (s.yields n).length ≤ 4) ∧
    (4 ≤ s.index → s.next = (none, s)) := by
  obtain ⟨a, b, c, d, i⟩ := s
  refine ⟨?_, ?_, ?_, ?_⟩
  · intro r s2 h
    rcases i with _ | _ | _ | _ | m
    · simp only [CursorRects.next, Prod.mk.injEq] at h
      obtain ⟨h1, h2⟩ := h
      subst h2
      exact ⟨rfl, rfl⟩
    · simp only [CursorRects.next, Prod.mk.injEq] at h
      obtain ⟨h1, h2⟩ := h
      subst h2
      exact ⟨rfl, rfl⟩
    · simp only [CursorRects.next, Prod.mk.injEq] at h
      obtain ⟨h1, h2⟩ := h
      subst h2
      exact ⟨rfl, rfl⟩
    · simp only [CursorRects.next, Prod.mk.injEq] at h
      obtain ⟨h1, h2⟩ := h
      subst h2
      exact ⟨rfl, rfl⟩
    · simp [CursorRects.next] at h
  · rcases i with _ | _ | _ | _ | m <;> simp [CursorRects.next]
  · intro n
    have h := yields_length_le n ⟨a, b, c, d, i⟩
    have hidx : (⟨a, b, c, d, i⟩ : CursorRects).index = i := rfl
    rw [hidx] at h
    omega
  · intro h
    have h4 : 4 ≤ i := h
    rcases i with _ | _ | _ | _ | m
    · exact absurd h4 (by omega)
    · exact absurd h4 (by omega)
    · exact absurd h4 (by omega)
    · exact absurd h4 (by omega)
    · rfl

/-- A one-rect set used by the C9 witness. -/
def sampleRect : RenderRect := ⟨0, 0, 1, 1, ⟨0, 0, 0⟩, 1⟩

/-- An exhausted set (cursor past slot 3) used by the C9 witness. -/
def spentSet : CursorRects := ⟨none, none, none, none, 4⟩

/-- Witness for C9: consuming the single-rect set advances the cursor from
0 to 1 and clears slot 0, and a set whose cursor is already past slot 3
returns end-of-sequence unchanged. -/
theorem c9_witness :
    ((⟨none, none, none, none, 1⟩ : CursorRects).index =
        (CursorRects.fromRect sampleRect).index + 1 ∧
      (⟨none, none, none, none, 1⟩ : CursorRects).slot
        (CursorRects.fromRect sampleRect).index = some none) ∧
    spentSet.next = (none, spentSet) :=
  ⟨(c9_single_pass (CursorRects.fromRect sampleRect)).1 sampleRect
      ⟨none, none, none, none, 1⟩ rfl,
    (c9_single_pass spentSet).2.2.2 (Nat.le_refl 4)⟩

/-- Standard single-pass consumption of the iterator with fuel `n`:
collect yielded rectangles, stopping at the first end-of-sequence item
(the semantics of a Rust `for` loop or `collect` over the iterator). -/
def CursorRects.collect : ℕ → CursorRects → List RenderRect
  | 0, _ => []
  | n + 1, s =>
    match s.next with
    | (some r, s2) => r :: CursorRects.collect n s2
    | (none, _) => []

/-- Top stroke of a hollow block at (0,0), cell 10×20, thickness 2. -/
def topRect : RenderRect := ⟨0, 0, 10, 2, ⟨1, 2, 3⟩, 1⟩

/-- Left stroke of the same hollow block. -/
def leftRect : RenderRect := ⟨0, 2, 2, 16, ⟨1, 2, 3⟩, 1⟩

/-- Right stroke of the same hollow block. -/
def rightRect : RenderRect := ⟨8, 2, 2, 16, ⟨1, 2, 3⟩, 1⟩

/-- The 4-slot hollow-block set at (0,0), cell 10×20, thickness 2. -/
def hollowSet : CursorRects := hollow 0 0 10 20 2 ⟨1, 2, 3⟩

/-- A per-rectangle interpolation used concretely: keep the current
rectangle unchanged. -/
def keepFirst : RenderRect → RenderRect → ℚ → ℚ → RenderRect :=
  fun a _ _ _ => a

/-- A target set whose bottom slot (slot 1) is empty. -/
def targetSet : CursorRects :=
  ⟨some topRect, none, some leftRect, some rightRect, 0⟩

/-- The hollow set interpolated against a target with an empty slot 1:
slot 1 becomes `none` while slots 2 and 3 still hold rectangles. -/
def mixedSet : CursorRects := hollowSet.interpolate keepFirst targetSet 1 1

/-- C10: a call to `next` on an in-bounds empty slot returns
end-of-sequence but still advances the cursor past the slot; hence on the
interpolated hollow set with an empty interior slot, a standard
single-pass consumer obtains only the rectangle before the gap — the left
stroke still stored in slot 2 is never yielded to it — while one more
explicit call after the gap does yield it. -/
theorem c10_empty_slot (s : CursorRects) :
    (s.index < 4 → s.slot s.index = some none →
      s.next = (none, { s with index := s.index + 1 })) ∧
    (CursorRects.collect 8 mixedSet = [topRect] ∧
      mixedSet.r2 = some leftRect ∧
      leftRect ∉ CursorRects.collect 8 mixedSet ∧
      (mixedSet.next.2.next.2).next.1 = some leftRect) := by
  constructor
  · intro h4 hslot
    obtain ⟨a, b, c, d, i⟩ := s
    have hi : i < 4 := h4
    interval_cases i <;>
      · simp only [CursorRects.slot, Option.some.injEq] at hslot
        subst hslot
        rfl
  · have hmix : mixedSet = ⟨some topRect, none, some leftRect,
        some rightRect, 0⟩ := by
      norm_num [mixedSet, hollowSet, targetSet, hollow, keepFirst,
        CursorRects.interpolate, interpolateSlot, RenderRect.new_cur,
        topRect, leftRect, rightRect]
    rw [hmix]
    refine ⟨rfl, rfl, ?_, rfl⟩
    simp [topRect, leftRect, CursorRects.collect, CursorRects.next,
      RenderRect.mk.injEq]

/-- A set whose read cursor sits on an empty slot 1 with rectangles left
in slots 2 and 3, used by the C10 witness. -/
def partialSet : CursorRects := ⟨none, none, some leftRect, some rightRect, 1⟩

/-- Witness for C10: calling `next` on the empty slot 1 returns
end-of-sequence yet advances the cursor to 2. -/
theorem c10_witness :
    partialSet.next =
      (none, { partialSet with index := partialSet.index + 1 }) :=
  (c10_empty_slot partialSet).1 (by decide) rfl
